import Mathlib

/-!
Verification of the 3DS ImGui platform backend
(`source/3ds/imgui_impl_ctru.cpp`) against its natural-language
specification.  The C++ translation units are shallowly embedded below:
pure computations become Lean functions, the function-local static state
of the keyboard overlay becomes explicit state passing, hardware reads
become explicit parameters, and machine floats are modelled over `ℚ`.
-/

namespace Ctru

/-! ### Hardware button bits (libctru `hid.h` values used by the source) -/

def KEY_A : Nat := 1
def KEY_B : Nat := 2
def KEY_DRIGHT : Nat := 16
def KEY_DLEFT : Nat := 32
def KEY_DUP : Nat := 64
def KEY_DDOWN : Nat := 128
def KEY_R : Nat := 256
def KEY_L : Nat := 512
def KEY_X : Nat := 1024
def KEY_Y : Nat := 2048
def KEY_ZL : Nat := 16384
def KEY_ZR : Nat := 32768
def KEY_TOUCH : Nat := 1048576

/-! ### Abstract ImGui event stream -/

/-- Logical ImGui keys the backend emits. -/
inductive ImGuiKey where
  | gamepadFaceDown
  | gamepadFaceRight
  | gamepadFaceUp
  | gamepadFaceLeft
  | gamepadL1
  | gamepadR1
  | gamepadDpadUp
  | gamepadDpadRight
  | gamepadDpadDown
  | gamepadDpadLeft
  | gamepadLStickLeft
  | gamepadLStickRight
  | gamepadLStickUp
  | gamepadLStickDown
  | backspace
deriving DecidableEq, Repr

/-- Events appended to the ImGui input queue by the backend
(`AddMouseSourceEvent`, `AddMousePosEvent`, `AddMouseButtonEvent`,
`AddKeyEvent`, `AddKeyAnalogEvent`, `AddInputCharactersUTF8`). -/
inductive Event where
  | mouseSource (isTouch : Bool)
  | mousePos (x y : ℚ)
  | mouseButton (index : Nat) (down : Bool)
  | key (k : ImGuiKey) (down : Bool)
  | keyAnalog (k : ImGuiKey) (down : Bool) (intensity : ℚ)
  | textUTF8 (bytes : List Nat)
deriving DecidableEq, Repr

/-! ### Clipboard store (`s_clipboard`, `getClipboardText`, `setClipboardText`) -/

/-- Initial value of the process-wide `std::string s_clipboard`. -/
def initClipboard : String := ""

/-- Embeds `getClipboardText`: returns the stored string. -/
def getClipboardText (clipboard : String) : String := clipboard

/-- Embeds `setClipboardText`: `s_clipboard = text_`, replacing the store. -/
def setClipboardText (text_ : String) (_clipboard : String) : String := text_

/-! ### Touch translator (`updateTouch`) -/

/-- Raw touch sample, fields `px`/`py` of `touchPosition` (u16 pixels). -/
structure TouchPos where
  px : Nat
  py : Nat
deriving DecidableEq, Repr

/-- Embeds `updateTouch`: the three-way branch on the touch bit of the
held/down/up key masks, emitting mouse events. -/
def updateTouch (keysHeld keysDown keysUp : Nat) (pos : TouchPos) : List Event :=
  if (keysHeld ||| keysDown) &&& KEY_TOUCH ≠ 0 then
    [Event.mouseSource true,
     Event.mousePos ((pos.px : ℚ) + 40) ((pos.py : ℚ) + 240),
     Event.mouseButton 0 true]
  else if keysUp &&& KEY_TOUCH ≠ 0 then
    [Event.mouseButton 0 false]
  else
    [Event.mousePos (-10) (-10)]

/-! ### Clock adapter (`n3ds_clock`, the time step in `ImGui::Ctru::NewFrame`) -/

/-- Hardware tick frequency `SYSCLOCK_ARM11` (ticks per second). -/
def SYSCLOCK_ARM11 : Nat := 268111856

/-- Modulus of the `uint64_t` tick representation, `2 ^ 64`. -/
def U64 : Nat := 18446744073709551616

/-- Unsigned 64-bit subtraction `b - a` as performed on the
`n3ds_clock::duration` representation. -/
def usub64 (b a : Nat) : Nat := (b % U64 + (U64 - a % U64)) % U64

/-- Elapsed seconds between ticks `a` (earlier) and `b` (later):
`std::chrono::duration<float> (now - prev).count ()`, over `ℚ`. -/
def elapsedSeconds (a b : Nat) : ℚ := (usub64 b a : ℚ) / (SYSCLOCK_ARM11 : ℚ)

/-- Static timing state of `ImGui::Ctru::NewFrame`: `prev` is `none`
before the first call (the function-local statics are uninitialized), and
`pos` indexes the stream of `svcGetSystemTick` samples drawn so far. -/
structure ClockState where
  prev : Option Nat
  pos : Nat
deriving DecidableEq, Repr

/-- Timing state before the first `NewFrame` call. -/
def initClockState : ClockState := ClockState.mk none 0

/-- Embeds the time step of `ImGui::Ctru::NewFrame`: on the first call the
statics `start` and `prev` are initialized from one `now ()` sample, then a
second sample is taken and `io.DeltaTime = now - prev`; on later calls a
single sample is taken against the stored `prev`. -/
def newFrameDelta (stream : Nat → Nat) (s : ClockState) : ℚ × ClockState :=
  match s.prev with
  | none =>
    (elapsedSeconds (stream s.pos) (stream (s.pos + 1)),
     ClockState.mk (some (stream (s.pos + 1))) (s.pos + 2))
  | some p =>
    (elapsedSeconds p (stream s.pos),
     ClockState.mk (some (stream s.pos)) (s.pos + 1))

/-- Delta-time computed by the very first `NewFrame` invocation. -/
def firstFrameDelta (stream : Nat → Nat) : ℚ :=
  (newFrameDelta stream initClockState).1

/-! ### Gamepad translator (`updateGamepads`) -/

/-- The `buttonMapping` table of `updateGamepads`, in source order. -/
def buttonMapping : List (Nat × ImGuiKey) :=
  [ (KEY_A, ImGuiKey.gamepadFaceDown),
    (KEY_B, ImGuiKey.gamepadFaceRight),
    (KEY_X, ImGuiKey.gamepadFaceUp),
    (KEY_Y, ImGuiKey.gamepadFaceLeft),
    (KEY_L, ImGuiKey.gamepadL1),
    (KEY_ZL, ImGuiKey.gamepadL1),
    (KEY_ZR, ImGuiKey.gamepadR1),
    (KEY_R, ImGuiKey.gamepadR1),
    (KEY_DUP, ImGuiKey.gamepadDpadUp),
    (KEY_DRIGHT, ImGuiKey.gamepadDpadRight),
    (KEY_DDOWN, ImGuiKey.gamepadDpadDown),
    (KEY_DLEFT, ImGuiKey.gamepadDpadLeft) ]

/-- Embeds the button loop of `updateGamepads`: per table entry, a key-up
event when the up mask hits, then a key-down event when the down mask hits. -/
def updateGamepadButtons (keysUp keysDown : Nat) : List Event :=
  buttonMapping.flatMap fun e =>
    (if keysUp &&& e.1 ≠ 0 then [Event.key e.2 false] else []) ++
    (if keysDown &&& e.1 ≠ 0 then [Event.key e.2 true] else [])

/-- Raw circle-pad sample, fields `dx`/`dy` of `circlePosition` (s16). -/
structure CirclePosition where
  dx : ℚ
  dy : ℚ
deriving DecidableEq, Repr

/-- Embeds `std::clamp (v, lo, hi)`. -/
def clampQ (v lo hi : ℚ) : ℚ := if v < lo then lo else if hi < v then hi else v

/-- Embeds the per-direction normalization of `updateGamepads`:
`std::clamp ((in / 156.0f - min) / (max - min), 0.0f, 1.0f)`. -/
def analogValue (raw mn mx : ℚ) : ℚ := clampQ ((raw / 156 - mn) / (mx - mn)) 0 1

/-- The `analogMapping` table of `updateGamepads`, in source order:
axis selector, logical key, `min` threshold, `max` threshold. -/
def analogMapping : List ((CirclePosition → ℚ) × ImGuiKey × ℚ × ℚ) :=
  [ (fun c => c.dx, ImGuiKey.gamepadLStickLeft, -(3/10), -(9/10)),
    (fun c => c.dx, ImGuiKey.gamepadLStickRight, 3/10, 9/10),
    (fun c => c.dy, ImGuiKey.gamepadLStickUp, 3/10, 9/10),
    (fun c => c.dy, ImGuiKey.gamepadLStickDown, -(3/10), -(9/10)) ]

/-- Embeds the analog loop of `updateGamepads`:
`io_.AddKeyAnalogEvent (out, value > 0.1f, value)` for each direction. -/
def updateGamepadsAnalog (cpad : CirclePosition) : List Event :=
  analogMapping.map fun e =>
    Event.keyAnalog e.2.1 (decide ((1:ℚ)/10 < analogValue (e.1 cpad) e.2.2.1 e.2.2.2))
      (analogValue (e.1 cpad) e.2.2.1 e.2.2.2)

/-- Embeds `updateGamepads` whole: button events then analog events. -/
def updateGamepads (keysUp keysDown : Nat) (cpad : CirclePosition) : List Event :=
  updateGamepadButtons keysUp keysDown ++ updateGamepadsAnalog cpad

/-- The normalization formula exactly as the specification states it for a
direction of positive sign: `clamp((raw/156.0 - deadzoneThreshold) /`
`(fullThreshold - deadzoneThreshold), 0, 1)` with thresholds 0.3 and 0.9;
negative-sign directions apply it to the negated raw value. -/
def specIntensity (raw : ℚ) : ℚ :=
  clampQ ((raw / 156 - 3/10) / (9/10 - 3/10)) 0 1

/-! ### Keyboard overlay state machine (`updateKeyboard`) -/

/-- Result buttons of `swkbdInputText` (`SwkbdButton`). -/
inductive SwkbdButton where
  | nobutton
  | left
  | middle
  | right
deriving DecidableEq, Repr

/-- The C string stored in a byte buffer: the bytes before the first NUL. -/
def cString (buffer : List Nat) : List Nat := buffer.takeWhile (fun b => b ≠ 0)

/-- Embeds the post-`swkbdInputText` injection in `updateKeyboard`: on the
right button (OK) with `buffer[0] == 0`, a Backspace down/up pair; on OK
with nonempty buffer, the UTF-8 characters of the buffer; otherwise
nothing. -/
def kbdResultEvents (button : SwkbdButton) (buffer : List Nat) : List Event :=
  if button = SwkbdButton.right then
    if buffer.headD 0 = 0 then
      [Event.key ImGuiKey.backspace true, Event.key ImGuiKey.backspace false]
    else
      [Event.textUTF8 (cString buffer)]
  else []

/-- The three values of the function-local static `state` of
`updateKeyboard`: `INACTIVE` (Idle), `KEYBOARD` (AwaitingCompletion),
`CLEARED` (JustCompleted). -/
inductive KbdState where
  | inactive
  | keyboard
  | cleared
deriving DecidableEq, Repr

/-- Per-call environment of `updateKeyboard`: `io_.WantTextInput`, the
outcome of the blocking `swkbdInputText` call (button pressed and buffer
written), and `io_.Ctx->InputEventsQueue.Size`. -/
structure KbdIn where
  wantTextInput : Bool
  button : SwkbdButton
  buffer : List Nat
  queueSize : Nat
deriving DecidableEq, Repr

/-- Observable effects of one `updateKeyboard` call: events appended,
number of `ImGui::ClearActiveID` calls, number of `swkbdInputText` calls. -/
structure KbdOut where
  events : List Event
  clears : Nat
  kbdCalls : Nat
deriving DecidableEq, Repr

/-- A call with no observable effect. -/
def noOut : KbdOut := KbdOut.mk [] 0 0

/-- Embeds one call of `updateKeyboard` as a step of the state machine. -/
def updateKeyboard (s : KbdState) (i : KbdIn) : KbdState × KbdOut :=
  match s with
  | KbdState.inactive =>
    if i.wantTextInput = false then (KbdState.inactive, noOut)
    else (KbdState.keyboard, KbdOut.mk (kbdResultEvents i.button i.buffer) 0 1)
  | KbdState.keyboard =>
    if 0 < i.queueSize then (KbdState.keyboard, noOut)
    else (KbdState.cleared, KbdOut.mk [] 1 0)
  | KbdState.cleared => (KbdState.inactive, noOut)

/-- Runs `updateKeyboard` over a list of per-call environments, returning
the final state and the total number of `ImGui::ClearActiveID` calls. -/
def runKbd (s : KbdState) : List KbdIn → KbdState × Nat
  | [] => (s, 0)
  | i :: is =>
    ((runKbd (updateKeyboard s i).1 is).1,
     (updateKeyboard s i).2.clears + (runKbd (updateKeyboard s i).1 is).2)

/-- Modelled from the spec: the blocking modal-keyboard invocation
(`swkbdInputText`, external to this repository) takes an output buffer with
a fixed maximum byte length; the call site passes a zero-initialized
`char buffer[32]`, so the call writes at most 31 content bytes followed by
a NUL terminator into the 32-byte buffer. -/
def swkbdFillBuffer (userText : List Nat) : List Nat :=
  userText.take 31 ++ List.replicate (32 - (userText.take 31).length) 0

/-! ### Helper lemmas -/

theorem land_lor_zero (a b m : Nat) (h1 : a &&& m = 0) (h2 : b &&& m = 0) :
    (a ||| b) &&& m = 0 := by
  apply Nat.eq_of_testBit_eq
  intro i
  have t1 := congrArg (fun x => x.testBit i) h1
  have t2 := congrArg (fun x => x.testBit i) h2
  simp [Nat.testBit_and, Nat.testBit_or] at t1 t2 ⊢
  tauto

theorem usub64_sub (a b : Nat) (h1 : a ≤ b) (h2 : b < U64) :
    usub64 b a = b - a := by
  simp only [usub64, U64] at h2 ⊢
  omega

theorem clampQ_nonneg (v : ℚ) : 0 ≤ clampQ v 0 1 := by
  unfold clampQ
  split_ifs <;> linarith

theorem clampQ_le_one (v : ℚ) : clampQ v 0 1 ≤ 1 := by
  unfold clampQ
  split_ifs <;> linarith

theorem clampQ_mono {v w : ℚ} (h : v ≤ w) : clampQ v 0 1 ≤ clampQ w 0 1 := by
  unfold clampQ
  split_ifs <;> linarith

theorem analogValue_pos_sign (r : ℚ) :
    analogValue r (3/10) (9/10) = specIntensity r := rfl

theorem analogValue_neg_sign (r : ℚ) :
    analogValue r (-(3/10)) (-(9/10)) = specIntensity (-r) := by
  unfold analogValue specIntensity
  congr 1
  ring

theorem specIntensity_mono {r s : ℚ} (h : r ≤ s) :
    specIntensity r ≤ specIntensity s := by
  unfold specIntensity
  apply clampQ_mono
  gcongr

theorem cString_append_zero (xs rest : List Nat) :
    (cString (xs ++ 0 :: rest)).length ≤ xs.length := by
  induction xs with
  | nil => simp [cString]
  | cons x xs ih =>
    by_cases hx : x = 0
    · subst hx
      simp [cString]
    · simp only [cString, List.cons_append, List.takeWhile_cons] at ih ⊢
      simp [hx] at ih ⊢
      omega

theorem runKbd_keyboard_busy (busy rest : List KbdIn)
    (h : ∀ j ∈ busy, 0 < j.queueSize) :
    runKbd KbdState.keyboard (busy ++ rest) = runKbd KbdState.keyboard rest := by
  induction busy with
  | nil => rfl
  | cons j js ih =>
    have hj : 0 < j.queueSize := h j (by simp)
    have hs : ∀ x ∈ js, 0 < x.queueSize := fun x hx => h x (by simp [hx])
    simp [runKbd, updateKeyboard, hj, ih hs, noOut]

/-! ### Claim theorems -/

/-- Claim C9: after `setClipboardText t` a subsequent `getClipboardText`
returns exactly `t` regardless of the earlier stored value, and before any
set call `getClipboardText` returns the empty string. -/
theorem c9_clipboard_last_write_wins :
    (∀ t s : String, getClipboardText (setClipboardText t s) = t) ∧
    getClipboardText initClipboard = "" :=
  ⟨fun _ _ => rfl, rfl⟩

/-- Claim C5: on every frame where the touch surface is held or newly
pressed, `updateTouch` emits exactly a touch-tagged pointer move to
`(px + 40, py + 240)` followed by a button-0 down event, never a button
up; the raw sample `(0, 0)` maps to exactly `(40, 240)`. -/
theorem c5_touch_pressed (keysHeld keysDown keysUp : Nat) (pos : TouchPos)
    (h : (keysHeld ||| keysDown) &&& KEY_TOUCH ≠ 0) :
    updateTouch keysHeld keysDown keysUp pos =
      [Event.mouseSource true,
       Event.mousePos ((pos.px : ℚ) + 40) ((pos.py : ℚ) + 240),
       Event.mouseButton 0 true] ∧
    Event.mouseButton 0 false ∉ updateTouch keysHeld keysDown keysUp pos ∧
    updateTouch keysHeld keysDown keysUp (TouchPos.mk 0 0) =
      [Event.mouseSource true, Event.mousePos 40 240, Event.mouseButton 0 true] := by
  refine ⟨by simp [updateTouch, h], ?_, ?_⟩
  · simp [updateTouch, h]
  · simp [updateTouch, h]

/-- Claim C5 witness. -/
theorem c5_touch_pressed_witness :
    updateTouch KEY_TOUCH 0 0 (TouchPos.mk 0 0) =
      [Event.mouseSource true, Event.mousePos 40 240, Event.mouseButton 0 true] :=
  (c5_touch_pressed KEY_TOUCH 0 0 (TouchPos.mk 0 0) (by decide)).2.2

/-- Claim C6: on every frame with no touch bit set in the held, down, or
up masks, `updateTouch` emits exactly one pointer move to the off-canvas
sentinel `(-10, -10)` and no button events. -/
theorem c6_touch_idle (keysHeld keysDown keysUp : Nat) (pos : TouchPos)
    (h1 : keysHeld &&& KEY_TOUCH = 0) (h2 : keysDown &&& KEY_TOUCH = 0)
    (h3 : keysUp &&& KEY_TOUCH = 0) :
    updateTouch keysHeld keysDown keysUp pos = [Event.mousePos (-10) (-10)] := by
  have h := land_lor_zero keysHeld keysDown KEY_TOUCH h1 h2
  simp [updateTouch, h, h3]

/-- Claim C6 witness. -/
theorem c6_touch_idle_witness :
    updateTouch 0 0 0 (TouchPos.mk 0 0) = [Event.mousePos (-10) (-10)] :=
  c6_touch_idle 0 0 0 (TouchPos.mk 0 0) (by decide) (by decide) (by decide)

/-- Claim C8: for every pair of consecutive clock samples the computed
delta-time is nonnegative, and for in-range monotone samples the unsigned
64-bit subtraction computes exactly `(b - a) / ticksPerSecond`; every
delta the frame driver computes is nonnegative. -/
theorem c8_elapsed_nonneg :
    (∀ a b : Nat, 0 ≤ elapsedSeconds a b) ∧
    (∀ a b : Nat, a ≤ b → b < U64 →
      elapsedSeconds a b = ((b - a : Nat) : ℚ) / (SYSCLOCK_ARM11 : ℚ)) ∧
    (∀ (stream : Nat → Nat) (s : ClockState), 0 ≤ (newFrameDelta stream s).1) := by
  have h1 : ∀ a b : Nat, 0 ≤ elapsedSeconds a b := by
    intro a b
    unfold elapsedSeconds
    positivity
  refine ⟨h1, ?_, ?_⟩
  · intro a b hab hb
    unfold elapsedSeconds
    rw [usub64_sub a b hab hb]
  · intro stream s
    rcases s with ⟨prev, pos⟩
    cases prev <;> simp [newFrameDelta] <;> apply h1

/-- Claim C8 witness. -/
theorem c8_elapsed_nonneg_witness :
    elapsedSeconds 0 268 = ((268 - 0 : Nat) : ℚ) / (SYSCLOCK_ARM11 : ℚ) :=
  c8_elapsed_nonneg.2.1 0 268 (by norm_num) (by norm_num [U64])

/-- Claim C2 counterexample: with a tick stream that advances 268 ticks
between consecutive samples, the very first invocation of the frame
driver computes a positive delta-time, not 0, because the baseline and
the frame sample are two distinct `now ()` calls. -/
theorem c2_first_frame_counterexample :
    ¬ (firstFrameDelta (fun n => 268 * n) = 0) := by
  have h : firstFrameDelta (fun n => 268 * n) = elapsedSeconds 0 268 := rfl
  rw [h]
  unfold elapsedSeconds
  rw [usub64_sub 0 268 (by norm_num) (by norm_num [U64])]
  norm_num [SYSCLOCK_ARM11]

/-- Claim C2 (amended): the first invocation computes delta-time
`(s1 - s0) / ticksPerSecond` where `s0` is the baseline captured once at
first use and `s1` is the same call's frame sample; it is nonnegative,
and it equals 0 exactly when the tick counter did not advance between the
two samples. -/
theorem c2_first_frame_delta (stream : Nat → Nat)
    (hb : stream 1 < U64) (hm : stream 0 ≤ stream 1) :
    firstFrameDelta stream =
      ((stream 1 - stream 0 : Nat) : ℚ) / (SYSCLOCK_ARM11 : ℚ) ∧
    0 ≤ firstFrameDelta stream ∧
    (firstFrameDelta stream = 0 ↔ stream 1 = stream 0) := by
  have heq : firstFrameDelta stream = elapsedSeconds (stream 0) (stream 1) := rfl
  have hval : firstFrameDelta stream =
      ((stream 1 - stream 0 : Nat) : ℚ) / (SYSCLOCK_ARM11 : ℚ) := by
    rw [heq]
    unfold elapsedSeconds
    rw [usub64_sub (stream 0) (stream 1) hm hb]
  refine ⟨hval, ?_, ?_⟩
  · rw [hval]
    positivity
  · rw [hval]
    rw [div_eq_zero_iff]
    constructor
    · intro h
      rcases h with h | h
      · have : stream 1 - stream 0 = 0 := by exact_mod_cast h
        omega
      · norm_num [SYSCLOCK_ARM11] at h
    · intro h
      left
      rw [h]
      simp

/-- Claim C2 witness (for the amended statement): a stream that does not
advance between the two samples of the first call yields delta-time 0. -/
theorem c2_first_frame_delta_witness : firstFrameDelta (fun _ => 5) = 0 :=
  ((c2_first_frame_delta (fun _ => 5) (by norm_num [U64]) (le_refl 5)).2.2).mpr rfl

/-- Claim C3: after the modal keyboard returns, OK with a nonempty buffer
injects exactly one UTF-8 text event with that text; OK with an empty
buffer injects exactly Backspace down then Backspace up and no text event;
any other button injects nothing. -/
theorem c3_keyboard_result_events :
    (∀ buffer : List Nat, buffer.headD 0 ≠ 0 →
      kbdResultEvents SwkbdButton.right buffer = [Event.textUTF8 (cString buffer)] ∧
      cString buffer ≠ []) ∧
    (∀ buffer : List Nat, buffer.headD 0 = 0 →
      kbdResultEvents SwkbdButton.right buffer =
        [Event.key ImGuiKey.backspace true, Event.key ImGuiKey.backspace false]) ∧
    (∀ (b : SwkbdButton) (buffer : List Nat), b ≠ SwkbdButton.right →
      kbdResultEvents b buffer = []) := by
  refine ⟨?_, ?_, ?_⟩
  · intro buffer h
    constructor
    · unfold kbdResultEvents
      rw [if_pos rfl, if_neg h]
    · cases buffer with
      | nil => simp at h
      | cons x xs =>
        simp at h
        simp [cString, List.takeWhile_cons, h]
  · intro buffer h
    unfold kbdResultEvents
    rw [if_pos rfl, if_pos h]
  · intro b buffer h
    unfold kbdResultEvents
    rw [if_neg h]

/-- Claim C3 witness. -/
theorem c3_keyboard_result_events_witness :
    kbdResultEvents SwkbdButton.right [104, 105, 0] =
      [Event.textUTF8 (cString [104, 105, 0])] :=
  (c3_keyboard_result_events.1 [104, 105, 0] (by decide)).1

/-- Claim C10: the buffer handed to the modal keyboard holds 32 bytes
including the NUL terminator, so the injected UTF-8 payload is at most 31
bytes long; any longer user entry is truncated to that bound. -/
theorem c10_text_truncation :
    ∀ userText : List Nat,
      (swkbdFillBuffer userText).length = 32 ∧
      (cString (swkbdFillBuffer userText)).length ≤ 31 ∧
      (∀ e ∈ kbdResultEvents SwkbdButton.right (swkbdFillBuffer userText),
        ∀ bs, e = Event.textUTF8 bs → bs.length ≤ 31) := by
  intro userText
  have ht : (userText.take 31).length ≤ 31 := by
    simp [List.length_take]
  have hbound : (cString (swkbdFillBuffer userText)).length ≤ 31 := by
    have hk : 32 - (userText.take 31).length =
        (31 - (userText.take 31).length) + 1 := by omega
    have h2 : swkbdFillBuffer userText =
        (userText.take 31 ++ List.replicate (31 - (userText.take 31).length) 0)
          ++ 0 :: [] := by
      unfold swkbdFillBuffer
      rw [hk, List.replicate_succ']
      simp
    rw [h2]
    refine le_trans (cString_append_zero _ []) ?_
    simp [List.length_replicate]
  refine ⟨?_, hbound, ?_⟩
  · simp [swkbdFillBuffer, List.length_take]
  · intro e he bs hbs
    by_cases h0 : (swkbdFillBuffer userText).headD 0 = 0
    · unfold kbdResultEvents at he
      rw [if_pos rfl, if_pos h0] at he
      simp at he
      rcases he with h | h <;> subst h <;> simp at hbs
    · unfold kbdResultEvents at he
      rw [if_pos rfl, if_neg h0] at he
      simp at he
      subst he
      injection hbs with hb1
      rw [← hb1]
      exact hbound

/-- Claim C10 witness: a 40-byte user entry is truncated to 31 bytes. -/
theorem c10_text_truncation_witness :
    (cString (swkbdFillBuffer (List.replicate 40 65))).length ≤ 31 :=
  (c10_text_truncation (List.replicate 40 65)).2.2
    (Event.textUTF8 (cString (swkbdFillBuffer (List.replicate 40 65))))
    (by decide)
    (cString (swkbdFillBuffer (List.replicate 40 65))) rfl

/-- Claim C7: a just-pressed bit on physical button A (the south-east face
button) makes `updateGamepadButtons` emit KeyDown for logical face-down
and nothing for face-right, and the mapping table sends A only to
face-down and B (south-west) only to face-right. -/
theorem c7_button_cross_mapping :
    (∀ keysUp keysDown : Nat, keysDown &&& KEY_A ≠ 0 →
      Event.key ImGuiKey.gamepadFaceDown true ∈ updateGamepadButtons keysUp keysDown) ∧
    updateGamepadButtons 0 KEY_A = [Event.key ImGuiKey.gamepadFaceDown true] ∧
    updateGamepadButtons 0 KEY_B = [Event.key ImGuiKey.gamepadFaceRight true] ∧
    (∀ p ∈ buttonMapping, p.1 = KEY_A → p.2 = ImGuiKey.gamepadFaceDown) ∧
    (∀ p ∈ buttonMapping, p.1 = KEY_B → p.2 = ImGuiKey.gamepadFaceRight) := by
  refine ⟨?_, by decide, by decide, by decide, by decide⟩
  intro keysUp keysDown h
  unfold updateGamepadButtons
  rw [List.mem_flatMap]
  refine ⟨(KEY_A, ImGuiKey.gamepadFaceDown), by simp [buttonMapping], ?_⟩
  simp [h]

/-- Claim C7 witness. -/
theorem c7_button_cross_mapping_witness :
    Event.key ImGuiKey.gamepadFaceDown true ∈ updateGamepadButtons 0 KEY_A :=
  c7_button_cross_mapping.1 0 KEY_A (by decide)

/-- Claim C4: each analog direction emits intensity
`clamp((raw/156 - 0.3) / (0.9 - 0.3), 0, 1)` of the direction-signed raw
deflection, with down flag `intensity > 0.1`; the intensity is monotone in
the deflection toward the direction, lies in `[0, 1]`, and all four
directions are 0 at raw `(0, 0)`. -/
theorem c4_analog_intensity :
    (∀ cpad : CirclePosition,
      updateGamepadsAnalog cpad =
        [ Event.keyAnalog ImGuiKey.gamepadLStickLeft
            (decide ((1:ℚ)/10 < specIntensity (-cpad.dx))) (specIntensity (-cpad.dx)),
          Event.keyAnalog ImGuiKey.gamepadLStickRight
            (decide ((1:ℚ)/10 < specIntensity cpad.dx)) (specIntensity cpad.dx),
          Event.keyAnalog ImGuiKey.gamepadLStickUp
            (decide ((1:ℚ)/10 < specIntensity cpad.dy)) (specIntensity cpad.dy),
          Event.keyAnalog ImGuiKey.gamepadLStickDown
            (decide ((1:ℚ)/10 < specIntensity (-cpad.dy))) (specIntensity (-cpad.dy)) ]) ∧
    (∀ r s : ℚ, r ≤ s → specIntensity r ≤ specIntensity s) ∧
    (∀ r : ℚ, 0 ≤ specIntensity r ∧ specIntensity r ≤ 1) ∧
    specIntensity 0 = 0 ∧
    updateGamepadsAnalog (CirclePosition.mk 0 0) =
      [ Event.keyAnalog ImGuiKey.gamepadLStickLeft false 0,
        Event.keyAnalog ImGuiKey.gamepadLStickRight false 0,
        Event.keyAnalog ImGuiKey.gamepadLStickUp false 0,
        Event.keyAnalog ImGuiKey.gamepadLStickDown false 0 ] := by
  have harg : ((0:ℚ)/156 - 3/10) / (9/10 - 3/10) < 0 := by norm_num
  have hzero : specIntensity 0 = 0 := by
    unfold specIntensity clampQ
    rw [if_pos harg]
  have hlist : ∀ cpad : CirclePosition,
      updateGamepadsAnalog cpad =
        [ Event.keyAnalog ImGuiKey.gamepadLStickLeft
            (decide ((1:ℚ)/10 < specIntensity (-cpad.dx))) (specIntensity (-cpad.dx)),
          Event.keyAnalog ImGuiKey.gamepadLStickRight
            (decide ((1:ℚ)/10 < specIntensity cpad.dx)) (specIntensity cpad.dx),
          Event.keyAnalog ImGuiKey.gamepadLStickUp
            (decide ((1:ℚ)/10 < specIntensity cpad.dy)) (specIntensity cpad.dy),
          Event.keyAnalog ImGuiKey.gamepadLStickDown
            (decide ((1:ℚ)/10 < specIntensity (-cpad.dy))) (specIntensity (-cpad.dy)) ] := by
    intro cpad
    simp [updateGamepadsAnalog, analogMapping, analogValue_neg_sign, analogValue_pos_sign]
  refine ⟨hlist, ?_, ?_, hzero, ?_⟩
  · intro r s h
    exact specIntensity_mono h
  · intro r
    exact ⟨clampQ_nonneg _, clampQ_le_one _⟩
  · rw [hlist (CirclePosition.mk 0 0)]
    norm_num [hzero]

/-- Claim C4 witness: monotonicity applied at a concrete pair. -/
theorem c4_analog_intensity_witness :
    specIntensity 0 ≤ specIntensity 78 :=
  c4_analog_intensity.2.1 0 78 (by norm_num)

/-- Claim C1: from Idle, a call with WantTextInput performs the blocking
keyboard call once and lands in AwaitingCompletion; AwaitingCompletion
moves to JustCompleted exactly when the input queue is empty, staying put
otherwise; JustCompleted returns to Idle unconditionally with no effect;
ClearActiveID fires exactly at the AwaitingCompletion-to-JustCompleted
step and exactly once over a full cycle. -/
theorem c1_keyboard_state_machine :
    (∀ i : KbdIn, i.wantTextInput = true →
      updateKeyboard KbdState.inactive i =
        (KbdState.keyboard, KbdOut.mk (kbdResultEvents i.button i.buffer) 0 1)) ∧
    (∀ i : KbdIn, i.queueSize = 0 →
      updateKeyboard KbdState.keyboard i = (KbdState.cleared, KbdOut.mk [] 1 0)) ∧
    (∀ i : KbdIn, 0 < i.queueSize →
      updateKeyboard KbdState.keyboard i = (KbdState.keyboard, noOut)) ∧
    (∀ i : KbdIn, updateKeyboard KbdState.cleared i = (KbdState.inactive, noOut)) ∧
    (∀ (s : KbdState) (i : KbdIn),
      (updateKeyboard s i).2.clears =
        if s = KbdState.keyboard ∧ i.queueSize = 0 then 1 else 0) ∧
    (∀ (i0 drain fin : KbdIn) (busy : List KbdIn),
      i0.wantTextInput = true → (∀ j ∈ busy, 0 < j.queueSize) →
      drain.queueSize = 0 →
      runKbd KbdState.inactive (i0 :: (busy ++ [drain, fin])) =
        (KbdState.inactive, 1)) := by
  have step0 : ∀ i : KbdIn, i.wantTextInput = true →
      updateKeyboard KbdState.inactive i =
        (KbdState.keyboard, KbdOut.mk (kbdResultEvents i.button i.buffer) 0 1) := by
    intro i h
    simp [updateKeyboard, h]
  have stepDrain : ∀ i : KbdIn, i.queueSize = 0 →
      updateKeyboard KbdState.keyboard i = (KbdState.cleared, KbdOut.mk [] 1 0) := by
    intro i h
    simp [updateKeyboard, h]
  refine ⟨step0, stepDrain, ?_, ?_, ?_, ?_⟩
  · intro i h
    simp [updateKeyboard, h]
  · intro i
    rfl
  · intro s i
    cases s with
    | inactive =>
      by_cases h : i.wantTextInput = false <;> simp [updateKeyboard, h, noOut]
    | keyboard =>
      by_cases h : 0 < i.queueSize
      · have h' : ¬ i.queueSize = 0 := by omega
        simp [updateKeyboard, h, h', noOut]
      · have h' : i.queueSize = 0 := by omega
        simp [updateKeyboard, h, h', noOut]
    | cleared =>
      simp [updateKeyboard, noOut]
  · intro i0 drain fin busy h0 hb hd
    have s1 := step0 i0 h0
    simp only [runKbd, s1]
    rw [runKbd_keyboard_busy busy [drain, fin] hb]
    simp [runKbd, updateKeyboard, hd, noOut]

/-- Claim C1 witness: a full cycle over four concrete calls. -/
theorem c1_keyboard_state_machine_witness :
    runKbd KbdState.inactive
      [KbdIn.mk true SwkbdButton.right [0] 0,
       KbdIn.mk false SwkbdButton.left [] 3,
       KbdIn.mk false SwkbdButton.left [] 0,
       KbdIn.mk false SwkbdButton.left [] 5] = (KbdState.inactive, 1) :=
  c1_keyboard_state_machine.2.2.2.2.2
    (KbdIn.mk true SwkbdButton.right [0] 0)
    (KbdIn.mk false SwkbdButton.left [] 0)
    (KbdIn.mk false SwkbdButton.left [] 5)
    [KbdIn.mk false SwkbdButton.left [] 3]
    rfl (by decide) rfl

end Ctru
